import Mathlib

/-!
Verification of the echo tool (`src/examples/utcp_tools/echo.py`).

The script is:

```
def main():
    try:
        args = json.loads(sys.argv[1]) if len(sys.argv) > 1 else {}
    except json.JSONDecodeError:
        args = {}

    text = args.get("text", "")
    print(json.dumps({"content": f"echo: {text}"}))
```

We give a shallow embedding: Python JSON values become the inductive `JVal`,
`json.loads` becomes the executable parser `loads`, the dictionary read
`args.get("text", "")` becomes `pyGet` (raising `AttributeError` on
non-dict values, as Python does), the f-string conversion becomes `pyStr`,
and `json.dumps({"content": ...})` becomes `dumpsRecord`.  The whole process
is the function `main : List String → Except PyExc String`: `.ok line` means
the process writes exactly `line` to standard output and exits with status 0,
while `.error e` means the exception `e` escapes `main`, so the process
writes nothing to standard output and exits with a nonzero status.

Abstractions (documented deviations from CPython, none load-bearing for the
claims below): Python strings are modelled as Lean `String` (sequences of
Unicode scalar values), so `\uXXXX` escapes denoting lone surrogates are
rejected by the embedded parser where CPython would keep the lone surrogate;
JSON numbers with a fraction or exponent (and the constants `NaN`,
`Infinity`, `-Infinity`) are kept as their lexeme in the `jfloat`
constructor instead of being converted to IEEE-754 doubles, and `str()` of
such a value returns that lexeme; the parser uses a fuel parameter in place
of CPython's recursion limit; `repr()` of a string escapes exactly the C0
controls and DEL, approximating CPython's Unicode-printability rule.
-/

namespace EchoTool

/-- The double-quote character `"` (written via `Char.ofNat` so that string
parsing code stays readable). -/
def dq : Char := Char.ofNat 34

/-- The backslash character `\`. -/
def bs : Char := Char.ofNat 92

/-- The single-quote character. -/
def sq : Char := Char.ofNat 39

/-- The left brace character. -/
def lbrace : Char := Char.ofNat 123

/-- The right brace character. -/
def rbrace : Char := Char.ofNat 125

/-- Python JSON values, the results of `json.loads`: `None`, `bool`, `int`,
`float` (kept as its source lexeme, see the file header), `str`, `list` and
`dict` (as an association list in insertion order). -/
inductive JVal : Type where
  | jnull : JVal
  | jbool : Bool → JVal
  | jint : Int → JVal
  | jfloat : String → JVal
  | jstr : String → JVal
  | jarr : List JVal → JVal
  | jobj : List (String × JVal) → JVal

/-- JSON whitespace, the characters `json.loads` skips between tokens. -/
def isJsonWs (c : Char) : Bool :=
  c = ' ' || c = Char.ofNat 9 || c = Char.ofNat 10 || c = Char.ofNat 13

/-- Drop leading JSON whitespace. -/
def skipWs : List Char → List Char
  | [] => []
  | c :: cs => if isJsonWs c then skipWs cs else c :: cs

/-- Value of one hexadecimal digit, as accepted in a `\uXXXX` escape. -/
def hexVal? (c : Char) : Option Nat :=
  if 48 ≤ c.toNat ∧ c.toNat ≤ 57 then some (c.toNat - 48)
  else if 97 ≤ c.toNat ∧ c.toNat ≤ 102 then some (c.toNat - 87)
  else if 65 ≤ c.toNat ∧ c.toNat ≤ 70 then some (c.toNat - 55)
  else none

/-- The single-character escapes of JSON strings, `\"`, `\\`, `\/`, `\b`,
`\f`, `\n`, `\r`, `\t`. -/
def simpleEsc? (e : Char) : Option Char :=
  if e = dq then some dq
  else if e = bs then some bs
  else if e = '/' then some '/'
  else if e = 'b' then some (Char.ofNat 8)
  else if e = 'f' then some (Char.ofNat 12)
  else if e = 'n' then some (Char.ofNat 10)
  else if e = 'r' then some (Char.ofNat 13)
  else if e = 't' then some (Char.ofNat 9)
  else none

/-- Prepend a decoded character to the pending string-parse result. -/
def mapCons (c : Char) (o : Option (List Char × List Char)) :
    Option (List Char × List Char) :=
  o.map fun p => (c :: p.1, p.2)

/-- Combined value of the four hexadecimal digits of a `\uXXXX` escape. -/
def hex4Val? (a b c d : Char) : Option Nat :=
  match hexVal? a, hexVal? b, hexVal? c, hexVal? d with
  | some ha, some hb, some hc, some hd =>
    some (((ha * 16 + hb) * 16 + hc) * 16 + hd)
  | _, _, _, _ => none

/-- Decoding of the continuation of a high surrogate `\uXXXX` whose value is
`n`: the six characters must be `\u` and four hexadecimal digits denoting a
low surrogate, and the two combine into one astral character, as in
CPython's `scanstring`. -/
def pairVal? (e2 u2 a2 b2 c3 d2 : Char) (n : Nat) : Option Char :=
  if e2 = bs ∧ u2 = 'u' then
    match hex4Val? a2 b2 c3 d2 with
    | some m =>
      if 0xDC00 ≤ m ∧ m < 0xE000 then
        some (Char.ofNat (0x10000 + (n - 0xD800) * 0x400 + (m - 0xDC00)))
      else none
    | none => none
  else none

/-- Parse the body of a JSON string after the opening quote, the way
CPython's `scanstring` does: literal characters up to the closing quote,
with control characters below U+0020 rejected (`strict=True`), the simple
escapes, and `\uXXXX` escapes where a high surrogate followed by `\u` and a
low surrogate combines into one astral character.  Returns the decoded
characters and the input remaining after the closing quote.  CPython's loop
is iterative; the fuel parameter only bounds the number of decoded
characters and is always instantiated large enough (each step consumes at
least one input character). -/
def parseStringBody : Nat → List Char → Option (List Char × List Char)
  | 0, _ => none
  | f + 1, input =>
    match input with
    | [] => none
    | c :: cs =>
      if c = dq then some ([], cs)
      else if c = bs then
        match cs with
        | [] => none
        | e :: cs1 =>
          if e = 'u' then
            match cs1 with
            | a :: b :: c2 :: d :: cs2 =>
              match hex4Val? a b c2 d with
              | some n =>
                if 0xD800 ≤ n ∧ n < 0xDC00 then
                  match cs2 with
                  | e2 :: u2 :: a2 :: b2 :: c3 :: d2 :: cs3 =>
                    match pairVal? e2 u2 a2 b2 c3 d2 n with
                    | some ch => mapCons ch (parseStringBody f cs3)
                    | none => none
                  | _ => none
                else if 0xDC00 ≤ n ∧ n < 0xE000 then none
                else mapCons (Char.ofNat n) (parseStringBody f cs2)
              | none => none
            | _ => none
          else
            match simpleEsc? e with
            | some ec => mapCons ec (parseStringBody f cs1)
            | none => none
      else if c.toNat < 0x20 then none
      else mapCons c (parseStringBody f cs)

/-- Numeric value of a digit string. -/
def digitsVal (ds : List Char) : Nat :=
  ds.foldl (fun acc d => acc * 10 + (d.toNat - 48)) 0

/-- The integer part of a JSON number: `0`, or a nonzero digit followed by
digits (no leading zeros), exactly the group `(?:0|[1-9]\d*)` of CPython's
`NUMBER_RE`.  Returns the digits and the rest of the input. -/
def parseIntPart : List Char → Option (List Char × List Char)
  | [] => none
  | c :: cs =>
    if c = '0' then some ([c], cs)
    else if c.isDigit then
      some (c :: cs.takeWhile Char.isDigit, cs.dropWhile Char.isDigit)
    else none

/-- The optional fraction part `(\.\d+)?` of a JSON number.  Returns the
consumed characters (empty when no fraction is present) and the rest. -/
def parseFrac (cs : List Char) : List Char × List Char :=
  match cs with
  | c :: rest =>
    if c = '.' then
      let ds := rest.takeWhile Char.isDigit
      if ds.isEmpty then ([], cs) else (c :: ds, rest.dropWhile Char.isDigit)
    else ([], cs)
  | [] => ([], cs)

/-- The optional exponent part `([eE][-+]?\d+)?` of a JSON number. -/
def parseExp (cs : List Char) : List Char × List Char :=
  match cs with
  | e :: rest =>
    if e = 'e' ∨ e = 'E' then
      let sr : List Char × List Char :=
        match rest with
        | s :: r => if s = '+' ∨ s = '-' then ([s], r) else ([], rest)
        | [] => ([], rest)
      let ds := sr.2.takeWhile Char.isDigit
      if ds.isEmpty then ([], cs)
      else (e :: sr.1 ++ ds, sr.2.dropWhile Char.isDigit)
    else ([], cs)
  | [] => ([], cs)

/-- Parse a JSON number the way CPython's scanner matches `NUMBER_RE` at the
current position: optional minus sign, integer part, optional fraction and
exponent.  An integer literal becomes a Python `int` (arbitrary precision,
our `Int`); a literal with fraction or exponent becomes a `float`, kept as
its lexeme (see the file header). -/
def parseNumber (cs : List Char) : Option (JVal × List Char) :=
  let sgn : Bool × List Char :=
    match cs with
    | c :: r => if c = '-' then (true, r) else (false, cs)
    | [] => (false, cs)
  match parseIntPart sgn.2 with
  | none => none
  | some (ids, cs2) =>
    let fr := parseFrac cs2
    let ex := parseExp fr.2
    if fr.1.isEmpty ∧ ex.1.isEmpty then
      let v : Int := Int.ofNat (digitsVal ids)
      some (.jint (if sgn.1 then -v else v), cs2)
    else
      let lexeme := (if sgn.1 then ['-'] else []) ++ ids ++ fr.1 ++ ex.1
      some (.jfloat (String.mk lexeme), ex.2)

/-- Remainder of the input after a literal token, or `none` when the input
does not start with the token: the embedding of CPython's
`s[idx:idx + n] == tok` checks for `null`, `true`, `false`, `NaN`,
`Infinity` and `-Infinity`. -/
def dropTok : List Char → List Char → Option (List Char)
  | [], cs => some cs
  | t :: ts, c :: cs => if c = t then dropTok ts cs else none
  | _ :: _, [] => none

mutual

/-- Parse one JSON value at the current (whitespace-skipped) position,
mirroring CPython's `scan_once`: strings, objects, arrays, the constants
`null`, `true`, `false`, numbers, then `NaN`, `Infinity`, `-Infinity`.
The fuel parameter stands in for CPython's recursion limit. -/
def parseValue : Nat → List Char → Option (JVal × List Char)
  | 0, _ => none
  | f + 1, cs =>
    match cs with
    | [] => none
    | c :: r =>
      if c = dq then
        (parseStringBody f r).map fun p => (.jstr (String.mk p.1), p.2)
      else if c = lbrace then
        match skipWs r with
        | c2 :: r2 =>
          if c2 = rbrace then some (.jobj [], r2)
          else (parseMembers f (c2 :: r2)).map fun p => (.jobj p.1, p.2)
        | [] => none
      else if c = '[' then
        match skipWs r with
        | c2 :: r2 =>
          if c2 = ']' then some (.jarr [], r2)
          else (parseElems f (c2 :: r2)).map fun p => (.jarr p.1, p.2)
        | [] => none
      else
        match dropTok (('n') :: ('u') :: ('l') :: ('l') :: []) cs with
        | some rest => some (.jnull, rest)
        | none =>
          match dropTok (('t') :: ('r') :: ('u') :: ('e') :: []) cs with
          | some rest => some (.jbool true, rest)
          | none =>
            match dropTok (('f') :: ('a') :: ('l') :: ('s') :: ('e') :: []) cs with
            | some rest => some (.jbool false, rest)
            | none =>
              match parseNumber cs with
              | some res => some res
              | none =>
                match dropTok (('N') :: ('a') :: ('N') :: []) cs with
                | some rest => some (.jfloat ("nan"), rest)
                | none =>
                  match dropTok
                      (('I') :: ('n') :: ('f') :: ('i') :: ('n') :: ('i') ::
                        ('t') :: ('y') :: []) cs with
                  | some rest => some (.jfloat ("inf"), rest)
                  | none =>
                    match dropTok
                        (('-') :: ('I') :: ('n') :: ('f') :: ('i') :: ('n') ::
                          ('i') :: ('t') :: ('y') :: []) cs with
                    | some rest => some (.jfloat ("-inf"), rest)
                    | none => none

/-- Parse the comma-separated elements of a nonempty JSON array, positioned
at an element, up to and including the closing bracket. -/
def parseElems : Nat → List Char → Option (List JVal × List Char)
  | 0, _ => none
  | f + 1, cs =>
    match parseValue f cs with
    | none => none
    | some (v, r) =>
      match skipWs r with
      | c :: r2 =>
        if c = ',' then
          (parseElems f (skipWs r2)).map fun p => (v :: p.1, p.2)
        else if c = ']' then some ([v], r2)
        else none
      | [] => none

/-- Parse the comma-separated `"key": value` members of a nonempty JSON
object, positioned at a key, up to and including the closing brace.  The
members are returned in source order; duplicate keys are resolved by
`dictFind` below, last occurrence winning, as Python's `dict` does. -/
def parseMembers : Nat → List Char → Option (List (String × JVal) × List Char)
  | 0, _ => none
  | f + 1, cs =>
    match cs with
    | [] => none
    | c :: r =>
      if c = dq then
        match parseStringBody f r with
        | none => none
        | some (k, r1) =>
          match skipWs r1 with
          | c2 :: r2 =>
            if c2 = ':' then
              match parseValue f (skipWs r2) with
              | none => none
              | some (v, r3) =>
                match skipWs r3 with
                | c3 :: r4 =>
                  if c3 = ',' then
                    (parseMembers f (skipWs r4)).map
                      fun p => ((String.mk k, v) :: p.1, p.2)
                  else if c3 = rbrace then some ([(String.mk k, v)], r4)
                  else none
                | [] => none
            else none
          | [] => none
      else none

end

/-- The embedding of `json.loads`: skip leading whitespace, parse one value,
and require only whitespace to remain (`Extra data` otherwise).  `none`
models `json.JSONDecodeError`.  The fuel `2 * length + 4` is enough for any
input the parser can consume. -/
def loads (s : String) : Option JVal :=
  match parseValue (2 * s.length + 4) (skipWs s.data) with
  | some (v, rest) => if skipWs rest = [] then some v else none
  | none => none

/-- Lookup in the association list of an object, last binding winning, which
is how Python's `dict` resolves the duplicate keys `json.loads` may feed
it. -/
def dictFind : List (String × JVal) → String → Option JVal
  | [], _ => none
  | (k, v) :: rest, key =>
    match dictFind rest key with
    | some r => some r
    | none => if k = key then some v else none

/-- The Python exceptions that can escape `main`: only the
`AttributeError` raised by `args.get` when `args` is not a dict. -/
inductive PyExc : Type where
  | attributeError : PyExc
deriving DecidableEq

/-- The embedding of `args.get("text", "")` on a parsed JSON value: a dict
returns the value at the key, or the default when the key is absent; every
other Python value (`None`, `bool`, `int`, `float`, `str`, `list`) has no
`get` attribute, so the call raises `AttributeError`. -/
def pyGet (v : JVal) (key : String) (dflt : JVal) : Except PyExc JVal :=
  match v with
  | .jobj kvs => .ok ((dictFind kvs key).getD dflt)
  | _ => .error .attributeError

/-- Lowercase hexadecimal digit, as produced by CPython's `%04x`
formatting. -/
def hexDigit (n : Nat) : Char := Char.ofNat (if n < 10 then 48 + n else 87 + n)

/-- Escaping for Python `repr` of a string: the backslash and the chosen
quote, the named escapes `\n`, `\r`, `\t`, and `\xHH` for the remaining C0
controls and DEL (see the file header for the approximation on other
non-printable code points). -/
def pyReprEsc (q c : Char) : List Char :=
  if c = bs ∨ c = q then [bs, c]
  else if c = Char.ofNat 10 then [bs, 'n']
  else if c = Char.ofNat 13 then [bs, 'r']
  else if c = Char.ofNat 9 then [bs, 't']
  else if c.toNat < 0x20 ∨ c.toNat = 0x7F then
    [bs, 'x', hexDigit (c.toNat / 16), hexDigit (c.toNat % 16)]
  else [c]

/-- Python `repr` of a string: single quotes, or double quotes when the
string contains a single quote but no double quote. -/
def pyReprStr (s : String) : String :=
  let q := if s.data.contains sq && ! s.data.contains dq then dq else sq
  String.mk (q :: s.data.flatMap (pyReprEsc q) ++ [q])

/-- Join with `", "`, as Python's container `repr` does. -/
def commaJoin : List String → String
  | [] => ""
  | [x] => x
  | x :: y :: xs => x ++ ", " ++ commaJoin (y :: xs)

mutual

/-- Python `repr` of a JSON value: `None`, `True`, `False`, decimal
integers, the float lexeme (see the file header), quoted strings, and
bracketed containers of the `repr`s of their parts. -/
def pyRepr : JVal → String
  | .jnull => "None"
  | .jbool true => "True"
  | .jbool false => "False"
  | .jint n => toString n
  | .jfloat lit => lit
  | .jstr s => pyReprStr s
  | .jarr xs => "[" ++ commaJoin (pyReprList xs) ++ "]"
  | .jobj kvs => "\x7b" ++ commaJoin (pyReprPairs kvs) ++ "\x7d"

/-- `repr` of each element of a list. -/
def pyReprList : List JVal → List String
  | [] => []
  | v :: vs => pyRepr v :: pyReprList vs

/-- The `'key': value` parts of the `repr` of a dict. -/
def pyReprPairs : List (String × JVal) → List String
  | [] => []
  | (k, v) :: kvs => (pyReprStr k ++ ": " ++ pyRepr v) :: pyReprPairs kvs

end

/-- Python `str()` as applied by the f-string `f"echo: {text}"`: the
identity on strings, `repr` on every other value (`str` and `repr` agree on
`None`, `bool`, `int`, `float`, `list` and `dict`). -/
def pyStr : JVal → String
  | .jstr s => s
  | v => pyRepr v

/-- Four-digit lowercase hexadecimal, CPython's `\uXXXX` payload. -/
def hex4 (n : Nat) : List Char :=
  [hexDigit (n / 4096 % 16), hexDigit (n / 256 % 16),
   hexDigit (n / 16 % 16), hexDigit (n % 16)]

/-- Escaping of one character by `json.dumps` with its default
`ensure_ascii=True`: `\"` and `\\`, the named control escapes, `\uXXXX` for
the other C0 controls and for every character above `0x7E`, with astral
characters written as a surrogate pair. -/
def escapeChar (c : Char) : List Char :=
  if c = dq then [bs, dq]
  else if c = bs then [bs, bs]
  else if c = Char.ofNat 10 then [bs, 'n']
  else if c = Char.ofNat 13 then [bs, 'r']
  else if c = Char.ofNat 9 then [bs, 't']
  else if c = Char.ofNat 8 then [bs, 'b']
  else if c = Char.ofNat 12 then [bs, 'f']
  else if c.toNat < 0x20 then bs :: 'u' :: hex4 c.toNat
  else if c.toNat ≤ 0x7E then [c]
  else if c.toNat < 0x10000 then bs :: 'u' :: hex4 c.toNat
  else
    bs :: 'u' :: hex4 (0xD800 + (c.toNat - 0x10000) / 0x400) ++
      bs :: 'u' :: hex4 (0xDC00 + (c.toNat - 0x10000) % 0x400)

/-- `json.dumps` serialization of a Python string: a quoted sequence of
escaped characters. -/
def dumpsStr (s : String) : List Char := dq :: s.data.flatMap escapeChar ++ [dq]

/-- The embedding of `json.dumps({"content": content})` for a string
`content`, with the default separators: `{"content": ` then the serialized
string then `}`. -/
def dumpsRecord (content : String) : String :=
  ("\x7b\"content\": ") ++ String.mk (dumpsStr content) ++ ("\x7d")

/-- The embedding of `main` in `src/examples/utcp_tools/echo.py` acting on
`sys.argv`.  `args` is the parse of `sys.argv[1]` when that argument exists
and parses, and the empty dict otherwise (no argument, or
`json.JSONDecodeError` caught).  Then `text = args.get("text", "")` and the
process prints `json.dumps({"content": f"echo: {text}"})`.  `.ok line`
means the process writes exactly the line to standard output and exits with
status 0; `.error e` means exception `e` escapes, nothing is written to
standard output, and the exit status is nonzero.  The `try/except
json.JSONDecodeError` fallback is `Option.getD`; `Except.map` runs the
remaining statements when `args.get` succeeds and propagates the exception
otherwise. -/
def main (argv : List String) : Except PyExc String :=
  let args : JVal :=
    if h : 1 < argv.length then (loads (argv.get ⟨1, h⟩)).getD (.jobj [])
    else .jobj []
  (pyGet args ("text") (.jstr "")).map
    fun text => dumpsRecord (("echo: ") ++ pyStr text)

/-- The output format promised by the spec, as a check on the printed line:
the line parses as a JSON object with exactly one key, `"content"`, whose
value is a string, and the line contains no newline character.  This
definition follows the spec's words and is compared with the behavior of
`main` in the theorems below. -/
def specOutputShape (line : String) : Bool :=
  (match loads line with
   | some (.jobj [(k, .jstr _)]) => k == ("content")
   | _ => false) && line.data.all (fun c => ! (c == Char.ofNat 10))

/- ### Helper lemmas -/

theorem hexVal_hexDigit : ∀ n, n < 16 → hexVal? (hexDigit n) = some n := by decide

theorem hexVal_hexDigit_mod (m : Nat) : hexVal? (hexDigit (m % 16)) = some (m % 16) :=
  hexVal_hexDigit _ (Nat.mod_lt _ (by norm_num))

theorem char_toNat_valid (c : Char) :
    c.toNat < 0xD800 ∨ (0xDFFF < c.toNat ∧ c.toNat < 0x110000) := by
  have h := c.valid
  simp [UInt32.isValidChar, Nat.isValidChar, Char.toNat] at h ⊢
  exact h

theorem hex4Val_hex4 (n : Nat) (h : n < 0x10000) :
    hex4Val? (hexDigit (n / 4096 % 16)) (hexDigit (n / 256 % 16))
      (hexDigit (n / 16 % 16)) (hexDigit (n % 16)) = some n := by
  simp [hex4Val?, hexVal_hexDigit_mod]
  omega

theorem psb_close (f : Nat) (rest : List Char) :
    parseStringBody (f + 1) (dq :: rest) = some ([], rest) := by
  simp only [parseStringBody, eq_self_iff_true, if_true, ite_true]

theorem psb_esc (f : Nat) (e ec : Char) (rest : List Char)
    (hu : (e = 'u') = False) (he : simpleEsc? e = some ec) :
    parseStringBody (f + 1) (bs :: e :: rest) =
      mapCons ec (parseStringBody f rest) := by
  have hbd : (bs = dq) = False := eq_false (by decide)
  simp only [parseStringBody, hbd, hu, he, if_false, ite_false,
    eq_self_iff_true, if_true, ite_true]

theorem psb_lit (f : Nat) (c : Char) (rest : List Char)
    (h1 : (c = dq) = False) (h2 : (c = bs) = False) (h3 : ¬ c.toNat < 0x20) :
    parseStringBody (f + 1) (c :: rest) = mapCons c (parseStringBody f rest) := by
  simp only [parseStringBody, h1, h2, if_false, ite_false]
  rw [if_neg h3]

theorem psb_u_step (f : Nat) (a b c d : Char) (n : Nat)
    (h : hex4Val? a b c d = some n)
    (hval : n < 0xD800 ∨ (0xDFFF < n ∧ n < 0x10000)) (rest : List Char) :
    parseStringBody (f + 1) (bs :: 'u' :: a :: b :: c :: d :: rest) =
      mapCons (Char.ofNat n) (parseStringBody f rest) := by
  have hbd : (bs = dq) = False := eq_false (by decide)
  simp only [parseStringBody, hbd, h, if_false, ite_false,
    eq_self_iff_true, if_true, ite_true]
  rw [if_neg (by omega), if_neg (by omega)]

theorem psb_pair_step (f : Nat) (a b c d a2 b2 c2 d2 : Char) (n m : Nat)
    (h1 : hex4Val? a b c d = some n) (hn : 0xD800 ≤ n ∧ n < 0xDC00)
    (h2 : hex4Val? a2 b2 c2 d2 = some m) (hm : 0xDC00 ≤ m ∧ m < 0xE000)
    (rest : List Char) :
    parseStringBody (f + 1)
      (bs :: 'u' :: a :: b :: c :: d :: bs :: 'u' :: a2 :: b2 :: c2 :: d2 :: rest) =
      mapCons (Char.ofNat (0x10000 + (n - 0xD800) * 0x400 + (m - 0xDC00)))
        (parseStringBody f rest) := by
  have hbd : (bs = dq) = False := eq_false (by decide)
  simp only [parseStringBody, hbd, h1, if_false, ite_false,
    eq_self_iff_true, if_true, ite_true]
  rw [if_pos hn]
  simp only [pairVal?, h2, eq_self_iff_true, and_self, if_true, ite_true]
  rw [if_pos hm]

set_option maxHeartbeats 1600000 in
theorem parseStringBody_escapeChar (f : Nat) (c : Char) (rest : List Char) :
    parseStringBody (f + 1) (escapeChar c ++ rest) =
      mapCons c (parseStringBody f rest) := by
  have hv := char_toNat_valid c
  rw [escapeChar]
  split_ifs with h1 h2 h3 h4 h5 h6 h7 h8 h9 h10
  · subst h1
    exact psb_esc f dq dq rest (eq_false (by decide)) rfl
  · subst h2
    exact psb_esc f bs bs rest (eq_false (by decide)) rfl
  · subst h3
    exact psb_esc f 'n' (Char.ofNat 10) rest (eq_false (by decide)) rfl
  · subst h4
    exact psb_esc f 'r' (Char.ofNat 13) rest (eq_false (by decide)) rfl
  · subst h5
    exact psb_esc f 't' (Char.ofNat 9) rest (eq_false (by decide)) rfl
  · subst h6
    exact psb_esc f 'b' (Char.ofNat 8) rest (eq_false (by decide)) rfl
  · subst h7
    exact psb_esc f 'f' (Char.ofNat 12) rest (eq_false (by decide)) rfl
  · simp only [hex4, List.cons_append, List.nil_append]
    rw [psb_u_step f _ _ _ _ c.toNat (hex4Val_hex4 c.toNat (by omega))
      (Or.inl (by omega)) rest, Char.ofNat_toNat]
  · exact psb_lit f c rest (eq_false fun hc => h1 (by rw [hc]))
      (eq_false fun hc => h2 (by rw [hc])) h8
  · simp only [hex4, List.cons_append, List.nil_append]
    rw [psb_u_step f _ _ _ _ c.toNat (hex4Val_hex4 c.toNat (by omega))
      (by omega) rest, Char.ofNat_toNat]
  · simp only [hex4, List.cons_append, List.nil_append]
    rw [psb_pair_step f _ _ _ _ _ _ _ _
      (0xD800 + (c.toNat - 0x10000) / 0x400) (0xDC00 + (c.toNat - 0x10000) % 0x400)
      (hex4Val_hex4 _ (by omega)) (by omega)
      (hex4Val_hex4 _ (by omega)) (by omega) rest]
    have harith : 0x10000 + (0xD800 + (c.toNat - 0x10000) / 0x400 - 0xD800) * 0x400 +
        (0xDC00 + (c.toNat - 0x10000) % 0x400 - 0xDC00) = c.toNat := by omega
    rw [harith, Char.ofNat_toNat]

theorem parseStringBody_flatMap (s : List Char) : ∀ (f : Nat) (rest : List Char),
    s.length < f →
    parseStringBody f (s.flatMap escapeChar ++ (dq :: rest)) = some (s, rest) := by
  induction s with
  | nil =>
    intro f rest hf
    match f, hf with
    | f + 1, _ =>
      rw [List.flatMap_nil, List.nil_append, psb_close]
  | cons c s ih =>
    intro f rest hf
    match f, hf with
    | f + 1, hf =>
      rw [List.flatMap_cons, List.append_assoc, parseStringBody_escapeChar,
        ih f rest (by simpa using Nat.lt_of_succ_lt_succ hf)]
      rfl

theorem mk_data (s : String) : String.mk s.data = s := by
  cases s
  rfl

theorem data_append (a b : String) : (a ++ b).data = a.data ++ b.data := by
  cases a
  cases b
  rfl

theorem str_length_data (s : String) : s.length = s.data.length := rfl

theorem skipWs_not (c : Char) (cs : List Char) (h : isJsonWs c = false) :
    skipWs (c :: cs) = c :: cs := by
  simp [skipWs, h]

theorem skipWs_ws (c : Char) (cs : List Char) (h : isJsonWs c = true) :
    skipWs (c :: cs) = skipWs cs := by
  simp [skipWs, h]

theorem dumpsRecord_data (content : String) :
    (dumpsRecord content).data =
      lbrace :: dq :: (("content").data ++
        (dq :: ':' :: ' ' :: dq ::
          (content.data.flatMap escapeChar ++ (dq :: [rbrace])))) := by
  have hL : ("\x7b\"content\": ").data =
      lbrace :: dq :: (("content").data ++ (dq :: ':' :: ' ' :: [])) := by decide
  have hR : ("\x7d").data = [rbrace] := by decide
  rw [dumpsRecord, data_append, data_append, hL, hR]
  show lbrace :: dq :: ((("content").data ++ (dq :: ':' :: ' ' :: [])) ++
      (dq :: content.data.flatMap escapeChar ++ [dq]) ++ [rbrace]) = _
  simp [List.append_assoc]

set_option maxHeartbeats 1600000 in
theorem escapeChar_length_pos (c : Char) : 0 < (escapeChar c).length := by
  rw [escapeChar]
  split_ifs <;> simp [hex4]

theorem length_le_flatMap_escape (s : List Char) :
    s.length ≤ (s.flatMap escapeChar).length := by
  induction s with
  | nil => simp
  | cons c s ih =>
    rw [List.flatMap_cons, List.length_append, List.length_cons]
    have := escapeChar_length_pos c
    omega

theorem pv_str (f : Nat) (rest : List Char) :
    parseValue (f + 1) (dq :: rest) =
      (parseStringBody f rest).map (fun p => (.jstr (String.mk p.1), p.2)) := by
  simp only [parseValue, eq_self_iff_true, if_true, ite_true]

theorem pv_obj (f : Nat) (rest : List Char) :
    parseValue (f + 1) (lbrace :: rest) =
      (match skipWs rest with
       | c2 :: r2 =>
         if c2 = rbrace then some (.jobj [], r2)
         else (parseMembers f (c2 :: r2)).map fun p => (.jobj p.1, p.2)
       | [] => none) := by
  have h1 : (lbrace = dq) = False := eq_false (by decide)
  simp only [parseValue, h1, if_false, ite_false, eq_self_iff_true, if_true,
    ite_true]

theorem parseMembers_content (f : Nat) (content : String)
    (h8 : 7 < f) (hc : content.length + 1 < f) :
    parseMembers (f + 1)
      (dq :: (("content").data ++
        (dq :: ':' :: ' ' :: dq ::
          (content.data.flatMap escapeChar ++ (dq :: [rbrace]))))) =
      some ([(("content"), .jstr content)], []) := by
  match f, h8, hc with
  | f + 1, h8, hc =>
    have hkey : parseStringBody (f + 1)
        (("content").data ++
          (dq :: ':' :: ' ' :: dq ::
            (content.data.flatMap escapeChar ++ (dq :: [rbrace])))) =
        some (("content").data,
          ':' :: ' ' :: dq ::
            (content.data.flatMap escapeChar ++ (dq :: [rbrace]))) := by
      have hkf : (("content").data).flatMap escapeChar = ("content").data := by decide
      have h := parseStringBody_flatMap (("content").data) (f + 1)
        (':' :: ' ' :: dq :: (content.data.flatMap escapeChar ++ (dq :: [rbrace])))
        (by
          have h7 : (("content").data).length = 7 := by decide
          omega)
      rw [hkf] at h
      exact h
    have hval : parseValue (f + 1)
        (dq :: (content.data.flatMap escapeChar ++ (dq :: [rbrace]))) =
        some (.jstr content, [rbrace]) := by
      rw [pv_str, parseStringBody_flatMap content.data f [rbrace]
        (by rw [str_length_data] at hc; omega)]
      simp [mk_data]
    have hsk1 : skipWs
        (':' :: ' ' :: dq :: (content.data.flatMap escapeChar ++ (dq :: [rbrace]))) =
        ':' :: ' ' :: dq :: (content.data.flatMap escapeChar ++ (dq :: [rbrace])) :=
      skipWs_not _ _ (by decide)
    have hsk2 : skipWs
        (' ' :: dq :: (content.data.flatMap escapeChar ++ (dq :: [rbrace]))) =
        dq :: (content.data.flatMap escapeChar ++ (dq :: [rbrace])) := by
      rw [skipWs_ws _ _ (by decide), skipWs_not _ _ (by decide)]
    have hsk3 : skipWs [rbrace] = [rbrace] := skipWs_not _ _ (by decide)
    have hcm : (rbrace = ',') = False := eq_false (by decide)
    have hmk : String.mk (("content").data) = ("content") := mk_data _
    simp only [parseMembers, eq_self_iff_true, if_true, ite_true, hkey, hsk1,
      hsk2, hval, hsk3, hcm, if_false, ite_false, hmk]

theorem parseValue_record (f : Nat) (content : String)
    (h8 : 7 < f) (hc : content.length + 1 < f) :
    parseValue (f + 2) ((dumpsRecord content).data) =
      some (.jobj [(("content"), .jstr content)], []) := by
  rw [dumpsRecord_data]
  rw [show f + 2 = (f + 1) + 1 from rfl, pv_obj]
  rw [skipWs_not _ _ (by decide)]
  have hdr : (dq = rbrace) = False := eq_false (by decide)
  simp only [hdr, if_false, ite_false]
  rw [parseMembers_content f content h8 hc]
  rfl

theorem loads_dumpsRecord (content : String) :
    loads (dumpsRecord content) = some (.jobj [(("content"), .jstr content)]) := by
  have hlen : 7 < 2 * (dumpsRecord content).length + 2 ∧
      content.length + 1 < 2 * (dumpsRecord content).length + 2 := by
    have h1 : (dumpsRecord content).length = (dumpsRecord content).data.length := rfl
    have h2 := length_le_flatMap_escape content.data
    rw [h1, dumpsRecord_data]
    simp only [List.length_cons, List.length_append]
    have h7 : (("content").data).length = 7 := by decide
    rw [str_length_data]
    omega
  have hrec := parseValue_record (2 * (dumpsRecord content).length + 2) content
    hlen.1 hlen.2
  have hsk : skipWs ((dumpsRecord content).data) = (dumpsRecord content).data := by
    rw [dumpsRecord_data]
    exact skipWs_not _ _ (by decide)
  unfold loads
  rw [hsk, show 2 * (dumpsRecord content).length + 4 =
    (2 * (dumpsRecord content).length + 2) + 2 from rfl, hrec]
  simp [skipWs]

theorem hexDigit_ne_nl : ∀ k, k < 16 → hexDigit k ≠ Char.ofNat 10 := by decide

set_option maxHeartbeats 1600000 in
theorem nl_not_mem_escapeChar (c : Char) : (Char.ofNat 10) ∉ escapeChar c := by
  rw [escapeChar]
  split_ifs with h1 h2 h3 h4 h5 h6 h7 h8 h9 h10
  · decide
  · decide
  · decide
  · decide
  · decide
  · decide
  · decide
  · intro hmem
    simp only [hex4, List.mem_cons, List.not_mem_nil, or_false] at hmem
    rcases hmem with h | h | h | h | h | h <;>
      first
        | exact absurd h (by decide)
        | exact hexDigit_ne_nl _ (Nat.mod_lt _ (by norm_num)) h.symm
  · intro hmem
    simp only [List.mem_singleton] at hmem
    have h10' : (Char.ofNat 10).toNat = 10 := by decide
    rw [← hmem] at h8
    omega
  · intro hmem
    simp only [hex4, List.mem_cons, List.not_mem_nil, or_false] at hmem
    rcases hmem with h | h | h | h | h | h <;>
      first
        | exact absurd h (by decide)
        | exact hexDigit_ne_nl _ (Nat.mod_lt _ (by norm_num)) h.symm
  · intro hmem
    simp only [hex4, List.cons_append, List.nil_append, List.mem_cons,
      List.not_mem_nil, or_false] at hmem
    rcases hmem with h | h | h | h | h | h | h | h | h | h | h | h <;>
      first
        | exact absurd h (by decide)
        | exact hexDigit_ne_nl _ (Nat.mod_lt _ (by norm_num)) h.symm

theorem dumpsRecord_no_nl (content : String) :
    (Char.ofNat 10) ∉ (dumpsRecord content).data := by
  have hesc : ∀ x : Char, ((Char.ofNat 10) ∈ escapeChar x) = False :=
    fun x => eq_false (nl_not_mem_escapeChar x)
  rw [dumpsRecord_data]
  intro hmem
  simp +decide only [List.mem_cons, List.mem_append, List.mem_flatMap, hesc,
    List.not_mem_nil, or_false, false_or, exists_false, and_false,
    exists_const] at hmem

theorem main_cons_cons (p a : String) (t : List String) :
    main (p :: a :: t) =
      (pyGet ((loads a).getD (.jobj [])) ("text") (.jstr "")).map
        (fun text => dumpsRecord (("echo: ") ++ pyStr text)) := by
  have hlt : 1 < (p :: a :: t).length := Nat.succ_lt_succ (Nat.succ_pos _)
  unfold main
  rw [dif_pos hlt]
  simp only [List.get]

theorem main_one (p : String) : main [p] = .ok (dumpsRecord (("echo: "))) := rfl

theorem main_nil : main [] = .ok (dumpsRecord (("echo: "))) := rfl

theorem main_ok_content (argv : List String) (out : String)
    (h : main argv = .ok out) :
    ∃ t : JVal, out = dumpsRecord (("echo: ") ++ pyStr t) := by
  match argv with
  | [] =>
    rw [main_nil] at h
    exact ⟨.jstr "", by injection h with h; rw [← h]; rfl⟩
  | [p] =>
    rw [main_one] at h
    exact ⟨.jstr "", by injection h with h; rw [← h]; rfl⟩
  | p :: a :: t =>
    rw [main_cons_cons] at h
    revert h
    cases hpy : pyGet ((loads a).getD (.jobj [])) ("text") (.jstr "") with
    | ok text =>
      intro h
      injection h with h
      exact ⟨text, h.symm⟩
    | error e =>
      intro h
      cases h

theorem main_congr (a1 a2 : List String) (h : a1.get? 1 = a2.get? 1) :
    main a1 = main a2 := by
  match a1, a2 with
  | [], [] => rfl
  | [], [q] => rfl
  | [], q :: b :: u => simp [List.get?] at h
  | [p], [] => rfl
  | [p], [q] => rfl
  | [p], q :: b :: u => simp [List.get?] at h
  | p :: a :: t, [] => simp [List.get?] at h
  | p :: a :: t, [q] => simp [List.get?] at h
  | p :: a :: t, q :: b :: u =>
    simp only [List.get?] at h
    injection h with h
    subst h
    rw [main_cons_cons, main_cons_cons]

/- ### Claim theorems -/

/-- Claim C1: for every command-line argument that is a valid JSON object
string containing key `"text"` mapped to a string `s`, running the program
prints exactly the JSON line `{"content": "echo: " + s}` (as serialized by
`json.dumps`) to standard output and exits with status 0. -/
theorem claim1_echo_valid_text (p a s : String) (kvs : List (String × JVal))
    (hparse : loads a = some (.jobj kvs))
    (htext : dictFind kvs ("text") = some (.jstr s)) :
    main [p, a] = .ok (dumpsRecord (("echo: ") ++ s)) := by
  rw [main_cons_cons, hparse]
  simp only [Option.getD_some, pyGet, htext, pyStr, Except.map]

/-- Witness for C1 at the concrete invocation `echo.py {"text": "hi"}`. -/
theorem claim1_echo_valid_text_witness :
    loads (("\x7b\"text\": \"hi\"\x7d")) =
      some (.jobj [(("text"), .jstr ("hi"))]) ∧
    dictFind [(("text"), .jstr ("hi"))] ("text") = some (.jstr ("hi")) ∧
    main [("echo.py"), ("\x7b\"text\": \"hi\"\x7d")] =
      .ok (dumpsRecord (("echo: ") ++ ("hi"))) :=
  ⟨by rfl, by rfl,
    claim1_echo_valid_text (("echo.py")) (("\x7b\"text\": \"hi\"\x7d")) (("hi"))
      ([(("text"), .jstr ("hi"))]) (by rfl) (by rfl)⟩

/-- Claim C2: for every command-line argument string that is not parseable
as JSON, the program does not raise: the `json.JSONDecodeError` handler
substitutes an empty mapping, and the program prints
`{"content": "echo: "}` and exits with status 0. -/
theorem claim2_malformed_fallback (p a : String) (h : loads a = none) :
    main [p, a] = .ok (("\x7b\"content\": \"echo: \"\x7d")) := by
  rw [main_cons_cons, h]
  rfl

/-- Witness for C2 at the concrete invocation `echo.py not-json`. -/
theorem claim2_malformed_fallback_witness :
    loads (("not-json")) = none ∧
    main [("echo.py"), ("not-json")] = .ok (("\x7b\"content\": \"echo: \"\x7d")) :=
  ⟨by rfl, claim2_malformed_fallback (("echo.py")) (("not-json")) (by rfl)⟩

/-- Counterexample to claim C3 as stated ("for every input, no error
condition is surfaced and the process exits with status 0"): the argument
`5` is valid JSON, so the decode-error fallback is not taken, and
`args.get` on the integer raises `AttributeError`, which escapes `main` —
the process exits with a nonzero status. -/
theorem claim3_counterexample :
    main [("echo.py"), ("5")] = .error .attributeError ∧
    loads (("5")) = some (.jint 5) := by
  exact ⟨by rfl, by rfl⟩

/-- Amended claim C3: when the argument is absent, malformed, or parses to
a JSON object, no error is surfaced and the process prints its one line and
exits with status 0; but when the argument parses to a non-object JSON
value, `args.get` raises `AttributeError` and the error escapes — malformed
JSON is not the only error kind. -/
theorem claim3_amended_error_paths :
    (∀ p : String, ∃ out, main [p] = .ok out) ∧
    (∀ p a : String,
      (∃ out, main [p, a] = .ok out) ∨
      (∃ v, loads a = some v ∧
        pyGet v ("text") (.jstr "") = .error .attributeError ∧
        main [p, a] = .error .attributeError)) := by
  refine ⟨fun p => ⟨_, main_one p⟩, fun p a => ?_⟩
  rcases hl : loads a with _ | v
  · left
    exact ⟨dumpsRecord (("echo: ") ++ pyStr (.jstr "")),
      by rw [main_cons_cons, hl]; rfl⟩
  · cases v with
    | jobj kvs =>
      left
      exact ⟨dumpsRecord (("echo: ") ++ pyStr ((dictFind kvs ("text")).getD (.jstr ""))),
        by rw [main_cons_cons, hl]; rfl⟩
    | jnull =>
      right
      exact ⟨.jnull, rfl, by rfl, by rw [main_cons_cons, hl]; rfl⟩
    | jbool b =>
      right
      exact ⟨.jbool b, rfl, by rfl, by rw [main_cons_cons, hl]; rfl⟩
    | jint n =>
      right
      exact ⟨.jint n, rfl, by rfl, by rw [main_cons_cons, hl]; rfl⟩
    | jfloat s =>
      right
      exact ⟨.jfloat s, rfl, by rfl, by rw [main_cons_cons, hl]; rfl⟩
    | jstr s =>
      right
      exact ⟨.jstr s, rfl, by rfl, by rw [main_cons_cons, hl]; rfl⟩
    | jarr xs =>
      right
      exact ⟨.jarr xs, rfl, by rfl, by rw [main_cons_cons, hl]; rfl⟩

/-- Claim C4: for the valid non-object JSON arguments `5`, `[1,2]` and
`null`, the parse succeeds (so the empty-mapping fallback is not taken) and
`args.get` raises `AttributeError`: the process aborts with a nonzero exit
status and writes no output line. -/
theorem claim4_nonobject_attribute_error :
    loads (("5")) = some (.jint 5) ∧
    loads (("[1,2]")) = some (.jarr ((.jint 1) :: (.jint 2) :: [])) ∧
    loads (("null")) = some .jnull ∧
    (∀ p : String,
      main [p, ("5")] = .error .attributeError ∧
      main [p, ("[1,2]")] = .error .attributeError ∧
      main [p, ("null")] = .error .attributeError) := by
  refine ⟨by rfl, by rfl, by rfl, fun p => ⟨?_, ?_, ?_⟩⟩ <;>
    rw [main_cons_cons] <;> rfl

/-- Claim C5: on every input on which the program produces output, that
output is a single line (it contains no newline character) of valid,
parseable JSON consisting of exactly one key, `"content"`, whose value is a
string. -/
theorem claim5_output_shape (argv : List String) (out : String)
    (h : main argv = .ok out) : specOutputShape out = true := by
  obtain ⟨t, rfl⟩ := main_ok_content argv out h
  simp only [specOutputShape, loads_dumpsRecord, beq_self_eq_true,
    Bool.true_and, Bool.and_eq_true, List.all_eq_true]
  intro x hx
  rw [Bool.not_eq_true', beq_eq_false_iff_ne]
  intro he
  exact dumpsRecord_no_nl (("echo: ") ++ pyStr t) (he ▸ hx)

/-- Witness for C5 at the no-argument invocation. -/
theorem claim5_output_shape_witness :
    main [("echo.py")] = .ok (("\x7b\"content\": \"echo: \"\x7d")) ∧
    specOutputShape (("\x7b\"content\": \"echo: \"\x7d")) = true :=
  ⟨by rfl,
    claim5_output_shape [("echo.py")] (("\x7b\"content\": \"echo: \"\x7d")) (by rfl)⟩

/-- Claim C6: invoked with no command-line argument, the argument mapping
is treated as empty and the program prints `{"content": "echo: "}`. -/
theorem claim6_no_argument (p : String) :
    main [p] = .ok (("\x7b\"content\": \"echo: \"\x7d")) := by
  rw [main_one]
  rfl

/-- Claim C7: for every valid JSON object argument lacking the key
`"text"`, the text value defaults to the empty string and the program
prints `{"content": "echo: "}`. -/
theorem claim7_missing_text (p a : String) (kvs : List (String × JVal))
    (hparse : loads a = some (.jobj kvs))
    (habs : dictFind kvs ("text") = none) :
    main [p, a] = .ok (("\x7b\"content\": \"echo: \"\x7d")) := by
  rw [main_cons_cons, hparse]
  simp only [Option.getD_some, pyGet, habs, Option.getD_none, pyStr, Except.map]
  rfl

/-- Witness for C7 at the concrete invocation `echo.py {}`. -/
theorem claim7_missing_text_witness :
    loads (("\x7b\x7d")) = some (.jobj []) ∧
    dictFind ([] : List (String × JVal)) ("text") = none ∧
    main [("echo.py"), ("\x7b\x7d")] = .ok (("\x7b\"content\": \"echo: \"\x7d")) :=
  ⟨by rfl, by rfl,
    claim7_missing_text (("echo.py")) (("\x7b\x7d")) [] (by rfl) (by rfl)⟩

/-- Claim C8: invoking the program with the argument `{"text": 5}`, whose
`"text"` value is a non-string JSON number, produces the output line whose
content field is the string `"echo: 5"`. -/
theorem claim8_number_text (p : String) :
    main [p, ("\x7b\"text\": 5\x7d")] =
      .ok (("\x7b\"content\": \"echo: 5\"\x7d")) := by
  rw [main_cons_cons]
  rfl

/-- Claim C9: a non-string `"text"` value is converted with Python's
`str()` by the f-string before concatenation rather than failing: JSON
`null` yields content `"echo: None"` and `true` yields `"echo: True"`
(Python renderings), and in general any present `"text"` value `v` yields
the line `json.dumps({"content": "echo: " + str(v)})`. -/
theorem claim9_str_conversion (p : String) :
    main [p, ("\x7b\"text\": null\x7d")] =
      .ok (("\x7b\"content\": \"echo: None\"\x7d")) ∧
    main [p, ("\x7b\"text\": true\x7d")] =
      .ok (("\x7b\"content\": \"echo: True\"\x7d")) ∧
    (∀ (a : String) (kvs : List (String × JVal)) (v : JVal),
      loads a = some (.jobj kvs) → dictFind kvs ("text") = some v →
      main [p, a] = .ok (dumpsRecord (("echo: ") ++ pyStr v))) := by
  refine ⟨by rw [main_cons_cons]; rfl, by rw [main_cons_cons]; rfl,
    fun a kvs v hp ht => ?_⟩
  rw [main_cons_cons, hp]
  simp only [Option.getD_some, pyGet, ht, Except.map]

/-- Witness for C9 at the concrete invocation `echo.py {"text": [1, 2]}`. -/
theorem claim9_str_conversion_witness :
    main [("echo.py"), ("\x7b\"text\": [1, 2]\x7d")] =
      .ok (dumpsRecord (("echo: ") ++ pyStr (.jarr ((.jint 1) :: (.jint 2) :: [])))) :=
  (claim9_str_conversion (("echo.py"))).2.2 (("\x7b\"text\": [1, 2]\x7d"))
    ([(("text"), .jarr ((.jint 1) :: (.jint 2) :: []))])
    (.jarr ((.jint 1) :: (.jint 2) :: [])) (by rfl) (by rfl)

/-- Claim C10: the output is a deterministic function of the command-line
argument at index 1 alone — two invocations with the same argument there
produce the same result regardless of further arguments (the embedded
`main` consults nothing else: no environment, files or network appear in
the source) — and the successful output line contains no newline, so
exactly one line is written. -/
theorem claim10_determinism (argv1 argv2 : List String) (out : String)
    (h1 : argv1.get? 1 = argv2.get? 1) (h2 : main argv1 = .ok out) :
    main argv1 = main argv2 ∧ (Char.ofNat 10) ∉ out.data := by
  refine ⟨main_congr argv1 argv2 h1, ?_⟩
  obtain ⟨t, rfl⟩ := main_ok_content argv1 out h2
  exact dumpsRecord_no_nl _

/-- Witness for C10: two invocations with the same JSON argument `{}` and
different program names and extra arguments. -/
theorem claim10_determinism_witness :
    ([("a"), ("\x7b\x7d")] : List String).get? 1 =
      ([("b"), ("\x7b\x7d"), ("c")] : List String).get? 1 ∧
    main [("a"), ("\x7b\x7d")] = .ok (("\x7b\"content\": \"echo: \"\x7d")) ∧
    (main [("a"), ("\x7b\x7d")] = main [("b"), ("\x7b\x7d"), ("c")] ∧
      (Char.ofNat 10) ∉ (("\x7b\"content\": \"echo: \"\x7d") : String).data) :=
  ⟨by rfl, by rfl,
    claim10_determinism [("a"), ("\x7b\x7d")] [("b"), ("\x7b\x7d"), ("c")]
      (("\x7b\"content\": \"echo: \"\x7d")) (by rfl) (by rfl)⟩

end EchoTool
